import Mathlib

/-!
Verification of the core simulation of the flappy_Game repository
(`src/main.rs`): the obstacle generator with difficulty scaling and
smoothness constraints, the per-tick Playing update, and the
Menu/Playing/End mode machine.

Machine integers (`i32`) are embedded as `Int` (no arithmetic here comes
near the `i32` range), `f32` quantities (frame time, vertical position and
velocity) as `ℚ`, and the ambient random number generator as an explicit
`choice : Nat` argument: `RandomNumberGenerator::range(lo, hi)` draws
uniformly from the half-open interval `[lo, hi)` and panics when the
interval is empty, which the embedding renders as `Option Int` with
`none` for the panic.  Fallible operations therefore return `Option`.

`player.rs` and `obstacle.rs` are not among the sources; the definitions
taken from them are modelled from the spec and marked as such.
-/

namespace FlappyGame

/-- SCREEN_WIDTH constant from main.rs. -/
def SCREEN_WIDTH : Int := 80

/-- SCREEN_HEIGHT constant from main.rs (the playfield height). -/
def SCREEN_HEIGHT : Int := 50

/-- FRAME_DURATION constant from main.rs: 75 milliseconds. -/
def FRAME_DURATION : ℚ := 75

/-- INITIAL_OBSTACLES constant from main.rs. -/
def INITIAL_OBSTACLES : Nat := 3

/-- OBSTACLE_INTERVAL constant from main.rs. -/
def OBSTACLE_INTERVAL : Int := 30

/-- The obstacle record: horizontal position, gap center, gap size
(struct Obstacle, fields as used by the literal in
`create_obstacle_with_constraint`). -/
structure Obstacle where
  x : Int
  gap_y : Int
  size : Int
deriving DecidableEq, Repr

/-- Modelled from the spec: `player.rs` is missing from the sources.  §3
describes the entity as position (x: horizontal scroll coordinate; y:
vertical coordinate, floating-point) plus vertical velocity
(floating-point); `main.rs` compares `player.x` with obstacle `x : i32`
and `player.y` with `SCREEN_HEIGHT`. -/
structure Player where
  x : Int
  y : ℚ
  velocity : ℚ
deriving DecidableEq, Repr

/-- Modelled from the spec: `Player::new(x, y)`; §3 says the entity is
recreated at game (re)start, with no initial vertical motion. -/
def Player.new (x : Int) (y : ℚ) : Player :=
  { x := x, y := y, velocity := 0 }

/-- Modelled from the spec: §4.1 `step()` (called `gravity_and_move` in
`main.rs`): velocity advances by a fixed gravity increment up to a capped
maximum downward velocity, then velocity is added to the vertical
position and the horizontal position advances by a fixed increment. -/
def Player.gravity_and_move (p : Player) : Player :=
  let v := if p.velocity < 2 then p.velocity + 1/5 else p.velocity
  { x := p.x + 1, y := p.y + v, velocity := v }

/-- Modelled from the spec: §4.1 `flap()` sets the vertical velocity to a
fixed negative (upward) value immediately, independent of the time
accumulator. -/
def Player.flap (p : Player) : Player :=
  { p with velocity := -2 }

/-- Modelled from the spec: `obstacle.rs` is missing from the sources.
§4.3 collision detection: the entity intersects the obstacle's solid
region (outside the gap band, within a fixed horizontal slab around the
obstacle's x). -/
def Obstacle.hit_obstacle (o : Obstacle) (p : Player) : Bool :=
  let half_size := o.size / 2
  p.x == o.x &&
    (decide (p.y < ((o.gap_y - half_size : Int) : ℚ)) ||
     decide (p.y > ((o.gap_y + half_size : Int) : ℚ)))

/-- Embedding of bracket_lib `RandomNumberGenerator::range(lo, hi)`: a
uniform draw from the half-open interval `[lo, hi)`, with the draw made
explicit as `choice`; the library panics when the interval is empty,
rendered as `none`. -/
def rngRange (lo hi : Int) (choice : Nat) : Option Int :=
  if lo < hi then some (lo + ((choice % (hi - lo).toNat : Nat) : Int)) else none

/-- Gap size formula of `create_obstacle_with_constraint`:
`i32::max(5, 20 - score)`. -/
def gapSize (score : Int) : Int := max 5 (20 - score)

/-- Lower bound of the unclamped valid gap-center range:
`half_size + 2` with `half_size = size / 2`. -/
def minGapY (score : Int) : Int := gapSize score / 2 + 2

/-- Upper bound of the unclamped valid gap-center range:
`SCREEN_HEIGHT - half_size - 2`. -/
def maxGapY (score : Int) : Int := SCREEN_HEIGHT - gapSize score / 2 - 2

/-- Maximum allowed difference between consecutive gap centers:
`(SCREEN_HEIGHT * 2) / 3`. -/
def maxDiff : Int := (SCREEN_HEIGHT * 2) / 3

/-- `State::create_obstacle_with_constraint(x, score)` from main.rs, with
the `last_obstacle_gap_y` field passed in and the updated field returned:
gap size is `max(5, 20 - score)`; with a history the valid range is
clamped to within `±maxDiff` of the previous gap center and sampled;
without a history the unclamped range is sampled.  `none` is the panic of
`range` on an empty interval. -/
def create_obstacle_with_constraint (last : Option Int) (x score : Int)
    (choice : Nat) : Option (Obstacle × Option Int) :=
  match (match last with
         | some last_gap_y =>
             rngRange (max (minGapY score) (last_gap_y - maxDiff))
                      (min (maxGapY score) (last_gap_y + maxDiff)) choice
         | none => rngRange (minGapY score) (maxGapY score) choice) with
  | some gap_y => some (⟨x, gap_y, gapSize score⟩, some gap_y)
  | none => none

/-- The game modes (enum GameMode). -/
inductive GameMode where
  | Menu
  | Playing
  | End
deriving DecidableEq, Repr

/-- The logical button actions (enum ButtonAction); per §6 only the
resulting logical action crosses from UI hit-testing into the core. -/
inductive ButtonAction where
  | Play
  | Quit
  | ToggleAudio
  | ToggleMusic
  | Restart
deriving DecidableEq, Repr

/-- The keys the Playing handler inspects (Space / M / B). -/
inductive Key where
  | Space
  | M
  | B
deriving DecidableEq, Repr

/-- The core fields of struct State (rendering, audio channels and the
button list are presentation/external collaborators and carry no core
state beyond the two toggles). -/
structure State where
  player : Player
  frame_time : ℚ
  mode : GameMode
  obstacles : List Obstacle
  score : Int
  audio_enabled : Bool
  music_enabled : Bool
  last_obstacle_gap_y : Option Int
deriving DecidableEq

/-- Per-tick external inputs: elapsed milliseconds, the pressed key, the
logical button action resulting from UI hit-testing, and the random draws
consumed by obstacle generation (`choice` for the single in-play
regeneration, `rand` for the draws of a restart). -/
structure Ctx where
  frame_time_ms : ℚ
  key : Option Key
  action : Option ButtonAction
  choice : Nat
  rand : List Nat

/-- The time-accumulator gate of `play`: add the elapsed time; when the
accumulated time exceeds FRAME_DURATION, reset it to 0 and run
`gravity_and_move`, otherwise leave the player untouched. -/
def stepPhysics (p : Player) (ft dt : ℚ) : ℚ × Player :=
  if ft + dt > FRAME_DURATION then (0, p.gravity_and_move) else (ft + dt, p)

/-- The Space-key handling of `play`: flap on Space. -/
def applyFlap (p : Player) (key : Option Key) : Player :=
  if key = some Key.Space then p.flap else p

/-- The pass-detection loop of `play`: iterate over the obstacles in
order and record the index of each obstacle whose x the player's x
exceeds; the last write wins, so the result is the highest such index. -/
def findPassedAux (px : Int) : List Obstacle → Nat → Option Nat → Option Nat
  | [], _, acc => acc
  | o :: os, i, acc =>
      findPassedAux px os (i + 1) (if px > o.x then some i else acc)

/-- Index selected for regeneration by the loop of `play` (the `passed`
variable). -/
def findPassed (px : Int) (obs : List Obstacle) : Option Nat :=
  findPassedAux px obs 0 none

/-- Whether index `j` of the obstacle list holds an obstacle the player
at `px` has passed. -/
def passedAt (px : Int) (obs : List Obstacle) (j : Nat) : Bool :=
  match obs[j]? with
  | some o => decide (px > o.x)
  | none => false

/-- `self.obstacles.iter().map(|o| o.x).max().unwrap_or(SCREEN_WIDTH)`. -/
def max_x (obs : List Obstacle) : Int :=
  match (obs.map (fun o => o.x)).max? with
  | some m => m
  | none => SCREEN_WIDTH

/-- The hit-detection loop of `play`: whether any obstacle reports a
collision with the player. -/
def anyHit (p : Player) (obs : List Obstacle) : Bool :=
  obs.any (fun o => o.hit_obstacle p)

/-- The player after the time-gated physics step and the flap input of a
Playing tick. -/
def playPlayer (s : State) (ctx : Ctx) : Player :=
  applyFlap (stepPhysics s.player s.frame_time ctx.frame_time_ms).2 ctx.key

/-- The frame-time accumulator after a Playing tick. -/
def playFrameTime (s : State) (ctx : Ctx) : ℚ :=
  (stepPhysics s.player s.frame_time ctx.frame_time_ms).1

/-- The mode after the collision branch of a Playing tick: a collision
turns it to End, otherwise it is left alone. -/
def playMode (s : State) (ctx : Ctx) : GameMode :=
  if anyHit (playPlayer s ctx) s.obstacles then GameMode.End else s.mode

/-- The state of a Playing tick before the pass branch: updated
player/accumulator, audio/music toggles, and the collision flag turning
the mode to End. -/
def playBase (s : State) (ctx : Ctx) : State :=
  { s with player := playPlayer s ctx, frame_time := playFrameTime s ctx,
           mode := playMode s ctx,
           audio_enabled := if ctx.key = some Key.M then !s.audio_enabled
                            else s.audio_enabled,
           music_enabled := if ctx.key = some Key.B then !s.music_enabled
                            else s.music_enabled }

/-- The body of `play` before the final floor check: physics gate, flap,
audio/music toggles, collision flag, and the pass branch (score
increment and in-place regeneration of the passed obstacle at
`max_x + OBSTACLE_INTERVAL` with the incremented score). -/
def playCore (s : State) (ctx : Ctx) : Option State :=
  match findPassed (playPlayer s ctx).x s.obstacles with
  | some i =>
      match create_obstacle_with_constraint s.last_obstacle_gap_y
          (max_x s.obstacles + OBSTACLE_INTERVAL) (s.score + 1) ctx.choice with
      | some (ob, h) =>
          some { playBase s ctx with score := s.score + 1,
                                     obstacles := s.obstacles.set i ob,
                                     last_obstacle_gap_y := h }
      | none => none
  | none => some (playBase s ctx)

/-- The final check of `play`: y beyond the playfield height ends the
game. -/
def fallCheck (s : State) : State :=
  if s.player.y > ((SCREEN_HEIGHT : Int) : ℚ) then { s with mode := GameMode.End } else s

/-- `State::play` from main.rs (rendering and sound sends omitted as
external): the Playing-mode per-tick handler. -/
def play (s : State) (ctx : Ctx) : Option State :=
  (playCore s ctx).map fallCheck

/-- The obstacle-building loop of `restart`: `INITIAL_OBSTACLES` calls of
`create_obstacle_with_constraint` at score 0, starting at SCREEN_WIDTH
and advancing x by OBSTACLE_INTERVAL, threading the gap history. -/
def build_obstacles (last : Option Int) (x : Int) :
    Nat → List Nat → Option (List Obstacle × Option Int)
  | 0, _ => some ([], last)
  | _ + 1, [] => none
  | n + 1, r :: rs =>
      match create_obstacle_with_constraint last x 0 r with
      | some (o, last1) =>
          match build_obstacles last1 (x + OBSTACLE_INTERVAL) n rs with
          | some (os, last2) => some (o :: os, last2)
          | none => none
      | none => none

/-- `State::restart` from main.rs: recreate the player at (5, 25), zero
the accumulator, enter Playing, clear the gap history, rebuild the
obstacle list from SCREEN_WIDTH with spacing OBSTACLE_INTERVAL at score
0, and zero the score (audio/music flags are kept; the music side effect
is external). -/
def State.restart (s : State) (rs : List Nat) : Option State :=
  match build_obstacles none SCREEN_WIDTH INITIAL_OBSTACLES rs with
  | some (obs, last2) =>
      some { s with player := Player.new 5 25, frame_time := 0,
                    mode := GameMode.Playing, obstacles := obs,
                    last_obstacle_gap_y := last2, score := 0 }
  | none => none

/-- `State::main_menu` reduced to its core effect (rendering, button
layout and mouse geometry are presentation): the logical action either
restarts into Playing, quits (external), or flips a toggle. -/
def main_menu (s : State) (act : Option ButtonAction) (rs : List Nat) :
    Option State :=
  match act with
  | some ButtonAction.Play => s.restart rs
  | some ButtonAction.Restart => s.restart rs
  | some ButtonAction.Quit => some s
  | some ButtonAction.ToggleAudio => some { s with audio_enabled := !s.audio_enabled }
  | some ButtonAction.ToggleMusic => some { s with music_enabled := !s.music_enabled }
  | none => some s

/-- `State::dead` reduced to its core effect, like `main_menu`: the End
screen restarts on the restart action, quits, or flips a toggle; nothing
else changes the mode. -/
def dead (s : State) (act : Option ButtonAction) (rs : List Nat) :
    Option State :=
  match act with
  | some ButtonAction.Play => s.restart rs
  | some ButtonAction.Restart => s.restart rs
  | some ButtonAction.Quit => some s
  | some ButtonAction.ToggleAudio => some { s with audio_enabled := !s.audio_enabled }
  | some ButtonAction.ToggleMusic => some { s with music_enabled := !s.music_enabled }
  | none => some s

/-- `GameState::tick` from main.rs: dispatch on the current mode. -/
def tick (s : State) (ctx : Ctx) : Option State :=
  match s.mode with
  | GameMode.Menu => main_menu s ctx.action ctx.rand
  | GameMode.Playing => play s ctx
  | GameMode.End => dead s ctx.action ctx.rand

/-- `State::new` from main.rs: Menu mode, player at (5, 25), zero
accumulator and score, both toggles on, no gap history; the initial
obstacle list is built by `Obstacle::new` (missing `obstacle.rs`), so it
is left abstract. -/
def initialState (obs : List Obstacle) : State :=
  { player := Player.new 5 25, frame_time := 0, mode := GameMode.Menu,
    obstacles := obs, score := 0, audio_enabled := true,
    music_enabled := true, last_obstacle_gap_y := none }

/-- States reachable from a fresh `State::new` by ticking. -/
inductive Reachable : State → Prop where
  | init (obs : List Obstacle) : Reachable (initialState obs)
  | step {s s' : State} (ctx : Ctx) :
      Reachable s → tick s ctx = some s' → Reachable s'

/-- The gap-history invariant maintained by every reachable state: the
score is non-negative and any recorded gap center lies strictly inside
the valid range for the current score. -/
def GapInv (s : State) : Prop :=
  0 ≤ s.score ∧ ∀ g, s.last_obstacle_gap_y = some g →
    minGapY s.score ≤ g ∧ g < maxGapY s.score

/-! Concrete states and inputs used to exercise the theorems below. -/

/-- A Menu tick whose UI action is the Play button, with all random draws
fixed to 0. -/
def demoCtx : Ctx :=
  { frame_time_ms := 0, key := none, action := some ButtonAction.Play,
    choice := 0, rand := [0, 0, 0] }

/-- The state `demoCtx` reaches from a fresh state: the restarted game. -/
def demoState : State :=
  { player := Player.new 5 25, frame_time := 0, mode := GameMode.Playing,
    obstacles := [⟨80, 12, 20⟩, ⟨110, 12, 20⟩, ⟨140, 12, 20⟩], score := 0,
    audio_enabled := true, music_enabled := true,
    last_obstacle_gap_y := some 12 }

/-- The spec's concrete pass scenario: the entity at x = 81 has just
passed the obstacle at x = 80. -/
def passState : State :=
  { player := ⟨81, 25, 0⟩, frame_time := 0, mode := GameMode.Playing,
    obstacles := [⟨80, 25, 20⟩, ⟨110, 25, 20⟩, ⟨140, 25, 20⟩], score := 0,
    audio_enabled := true, music_enabled := true,
    last_obstacle_gap_y := some 25 }

/-- A quiet sub-threshold tick: no elapsed time, no key, draw 0. -/
def passCtx : Ctx :=
  { frame_time_ms := 0, key := none, action := none, choice := 0, rand := [] }

/-- The result of the pass scenario: obstacle[0] replaced at
x = 140 + 30 = 170 with gap size max(5, 20 - 1) = 19, score 1. -/
def passResult : State :=
  { player := ⟨81, 25, 0⟩, frame_time := 0, mode := GameMode.Playing,
    obstacles := [⟨170, 11, 19⟩, ⟨110, 25, 20⟩, ⟨140, 25, 20⟩], score := 1,
    audio_enabled := true, music_enabled := true,
    last_obstacle_gap_y := some 11 }

/-- A tick on which the entity both passes the obstacle at x = 80 and
collides with the one at x = 81 (it sits at x = 81 below its gap). -/
def deathState : State :=
  { player := ⟨81, 45, 0⟩, frame_time := 0, mode := GameMode.Playing,
    obstacles := [⟨80, 25, 20⟩, ⟨81, 25, 6⟩], score := 0,
    audio_enabled := true, music_enabled := true,
    last_obstacle_gap_y := some 25 }

/-- The result of the death-tick scenario: mode End, yet the pass still
counted (score 1) and obstacle[0] was still replaced at 81 + 30 = 111. -/
def deathResult : State :=
  { player := ⟨81, 45, 0⟩, frame_time := 0, mode := GameMode.End,
    obstacles := [⟨111, 11, 19⟩, ⟨81, 25, 6⟩], score := 1,
    audio_enabled := true, music_enabled := true,
    last_obstacle_gap_y := some 11 }

/-- A Playing state whose entity is already below the floor line. -/
def fallState : State :=
  { player := ⟨10, 60, 0⟩, frame_time := 0, mode := GameMode.Playing,
    obstacles := [], score := 0, audio_enabled := true,
    music_enabled := true, last_obstacle_gap_y := none }

/-- The fall scenario's result: the floor check flipped the mode to
End. -/
def fallResult : State :=
  { player := ⟨10, 60, 0⟩, frame_time := 0, mode := GameMode.End,
    obstacles := [], score := 0, audio_enabled := true,
    music_enabled := true, last_obstacle_gap_y := none }

/-- A game-over state with some leftover score and history. -/
def endState : State :=
  { player := ⟨42, 60, 3⟩, frame_time := 7, mode := GameMode.End,
    obstacles := [⟨170, 11, 19⟩], score := 1, audio_enabled := true,
    music_enabled := true, last_obstacle_gap_y := some 11 }

/-- An End-screen tick with no input at all. -/
def endCtx : Ctx :=
  { frame_time_ms := 3, key := none, action := none, choice := 0, rand := [] }

/-- The state `endState` restarts into with all draws fixed to 0. -/
def restartResult : State :=
  { player := Player.new 5 25, frame_time := 0, mode := GameMode.Playing,
    obstacles := [⟨80, 12, 20⟩, ⟨110, 12, 20⟩, ⟨140, 12, 20⟩], score := 0,
    audio_enabled := true, music_enabled := true,
    last_obstacle_gap_y := some 12 }

/-- The x positions a run of the obstacle-building loop produces:
`n` positions from `x` with spacing OBSTACLE_INTERVAL. -/
def obstacleXs (x : Int) : Nat → List Int
  | 0 => []
  | n + 1 => x :: obstacleXs (x + OBSTACLE_INTERVAL) n

/-! Basic lemmas about the random draw and the generator. -/

theorem rngRange_bounds {lo hi : Int} {c : Nat} {v : Int}
    (h : rngRange lo hi c = some v) : lo ≤ v ∧ v < hi := by
  unfold rngRange at h
  split at h
  · rename_i hlt
    injection h with h
    subst h
    have h0 : (0 : Int) ≤ ((c % (hi - lo).toNat : Nat) : Int) := Int.ofNat_nonneg _
    have hpos : 0 < (hi - lo).toNat := by omega
    have hmod : c % (hi - lo).toNat < (hi - lo).toNat := Nat.mod_lt c hpos
    have h2 : ((c % (hi - lo).toNat : Nat) : Int) < (((hi - lo).toNat : Nat) : Int) := by
      exact_mod_cast hmod
    omega
  · exact absurd h (by simp)

theorem rngRange_empty {lo hi : Int} (c : Nat) (h : hi ≤ lo) :
    rngRange lo hi c = none := by
  unfold rngRange
  rw [if_neg]
  omega

/-- Unfolding of the generator without a gap history. -/
theorem create_none_eq (x score : Int) (c : Nat) :
    create_obstacle_with_constraint none x score c =
      match rngRange (minGapY score) (maxGapY score) c with
      | some gap_y => some (⟨x, gap_y, gapSize score⟩, some gap_y)
      | none => none := rfl

/-- Unfolding of the generator with a gap history. -/
theorem create_hist_eq (g x score : Int) (c : Nat) :
    create_obstacle_with_constraint (some g) x score c =
      match rngRange (max (minGapY score) (g - maxDiff))
          (min (maxGapY score) (g + maxDiff)) c with
      | some gap_y => some (⟨x, gap_y, gapSize score⟩, some gap_y)
      | none => none := rfl

/-- What a successful generator call guarantees: the returned obstacle
carries the requested x and the score-scaled size, the returned history
is the new gap center, the gap center lies in the unclamped valid range,
and with a history present it also lies within `±maxDiff` of it. -/
theorem create_eq_some {last : Option Int} {x score : Int} {c : Nat}
    {ob : Obstacle} {h : Option Int}
    (hc : create_obstacle_with_constraint last x score c = some (ob, h)) :
    ob.x = x ∧ ob.size = gapSize score ∧ h = some ob.gap_y ∧
      minGapY score ≤ ob.gap_y ∧ ob.gap_y < maxGapY score ∧
      ∀ g, last = some g → g - maxDiff ≤ ob.gap_y ∧ ob.gap_y < g + maxDiff := by
  cases last with
  | none =>
    rw [create_none_eq] at hc
    cases hr : rngRange (minGapY score) (maxGapY score) c with
    | none =>
      rw [hr] at hc
      exact Option.noConfusion hc
    | some v =>
      rw [hr] at hc
      simp only [Option.some.injEq, Prod.mk.injEq] at hc
      obtain ⟨hob, hh⟩ := hc
      have hx : ob.x = x := by rw [← hob]
      have hgy : ob.gap_y = v := by rw [← hob]
      have hsz : ob.size = gapSize score := by rw [← hob]
      obtain ⟨h1, h2⟩ := rngRange_bounds hr
      subst hh
      refine ⟨hx, hsz, by rw [hgy], by omega, by omega, ?_⟩
      intro g hg
      exact absurd hg (by simp)
  | some g0 =>
    rw [create_hist_eq] at hc
    cases hr : rngRange (max (minGapY score) (g0 - maxDiff))
        (min (maxGapY score) (g0 + maxDiff)) c with
    | none =>
      rw [hr] at hc
      exact Option.noConfusion hc
    | some v =>
      rw [hr] at hc
      simp only [Option.some.injEq, Prod.mk.injEq] at hc
      obtain ⟨hob, hh⟩ := hc
      have hx : ob.x = x := by rw [← hob]
      have hgy : ob.gap_y = v := by rw [← hob]
      have hsz : ob.size = gapSize score := by rw [← hob]
      obtain ⟨h1, h2⟩ := rngRange_bounds hr
      subst hh
      refine ⟨hx, hsz, by rw [hgy], by omega, by omega, ?_⟩
      intro g hg
      injection hg with hg
      subst hg
      omega

/-- C1 counterexample: with gap history 100 at score 0 the clamped range
is degenerate (min_allowed = 67 exceeds max_allowed = 38), and the
generator returns no obstacle at all (the range sampling panics) instead
of an obstacle inside the unclamped valid range. -/
theorem c1_counterexample :
    min (maxGapY 0) (100 + maxDiff) < max (minGapY 0) (100 - maxDiff) ∧
      create_obstacle_with_constraint (some 100) 170 0 0 = none := by
  decide

/-- C1 (amended): for every generator call with a gap history present
whose clamped range is degenerate (min_allowed exceeds max_allowed), the
generator does not fall back to the unclamped bounds: the range sampling
panics, embedded as returning none. -/
theorem c1_amended_degenerate (last x score : Int) (choice : Nat)
    (hdeg : min (maxGapY score) (last + maxDiff) <
      max (minGapY score) (last - maxDiff)) :
    create_obstacle_with_constraint (some last) x score choice = none := by
  rw [create_hist_eq, rngRange_empty choice (le_of_lt hdeg)]

/-- Witness for C1: a concrete degenerate call (history -100, score 0). -/
theorem c1_witness :
    create_obstacle_with_constraint (some (-100)) 200 0 7 = none :=
  c1_amended_degenerate (-100) 200 0 7 (by decide)

/-- C2: for every score s ≥ 0, a generated obstacle's gap size is
exactly max(5, 20 - s), hence at least 5; at s = 20 it is exactly 5. -/
theorem c2_gap_size (x score : Int) (hs : 0 ≤ score) (last : Option Int)
    (choice : Nat) (ob : Obstacle) (h : Option Int)
    (hc : create_obstacle_with_constraint last x score choice = some (ob, h)) :
    ob.size = max 5 (20 - score) ∧ 5 ≤ ob.size ∧
      (score = 20 → ob.size = 5) := by
  obtain ⟨-, hsize, -⟩ := create_eq_some hc
  unfold gapSize at hsize
  refine ⟨hsize, by omega, ?_⟩
  intro h20
  subst h20
  omega

/-- Witness for C2 at score 20: gap size max(5, 0) = 5. -/
theorem c2_witness :
    (⟨170, 4, 5⟩ : Obstacle).size = max 5 (20 - 20) ∧
      5 ≤ (⟨170, 4, 5⟩ : Obstacle).size ∧
      ((20 : Int) = 20 → (⟨170, 4, 5⟩ : Obstacle).size = 5) :=
  c2_gap_size 170 20 (by decide) none 0 ⟨170, 4, 5⟩ (some 4) (by decide)

/-- C3: every obstacle generated with a gap history present has its gap
center within maxDiff = 33 of the previous one and inside the valid
range [minGapY, maxGapY], and the history is updated to the new gap
center. -/
theorem c3_smoothness (x score lastg : Int) (choice : Nat) (ob : Obstacle)
    (h : Option Int)
    (hc : create_obstacle_with_constraint (some lastg) x score choice =
      some (ob, h)) :
    |ob.gap_y - lastg| ≤ maxDiff ∧ maxDiff = 33 ∧
      minGapY score ≤ ob.gap_y ∧ ob.gap_y ≤ maxGapY score ∧
      h = some ob.gap_y := by
  obtain ⟨-, -, hh, hmin, hmax, hdiff⟩ := create_eq_some hc
  obtain ⟨hd1, hd2⟩ := hdiff lastg rfl
  refine ⟨?_, by decide, hmin, le_of_lt hmax, hh⟩
  rw [abs_le]
  omega

/-- Witness for C3: history 25 at score 1 yields gap center 11, within
33 of 25 and inside [11, 39]. -/
theorem c3_witness :
    |(⟨170, 11, 19⟩ : Obstacle).gap_y - 25| ≤ maxDiff ∧ maxDiff = 33 ∧
      minGapY 1 ≤ (⟨170, 11, 19⟩ : Obstacle).gap_y ∧
      (⟨170, 11, 19⟩ : Obstacle).gap_y ≤ maxGapY 1 ∧
      (some 11 : Option Int) = some (⟨170, 11, 19⟩ : Obstacle).gap_y :=
  c3_smoothness 170 1 25 0 ⟨170, 11, 19⟩ (some 11) (by decide)

/-! Characterization of the pass-detection loop: the loop keeps the last
matching index, so the returned index is the highest passed one. -/

theorem passedAt_nil (px : Int) (j : Nat) : passedAt px [] j = false := by
  unfold passedAt
  simp

theorem passedAt_cons_zero (px : Int) (o : Obstacle) (os : List Obstacle) :
    passedAt px (o :: os) 0 = decide (px > o.x) := by
  unfold passedAt
  rw [List.getElem?_cons_zero]

theorem passedAt_cons_succ (px : Int) (o : Obstacle) (os : List Obstacle)
    (j : Nat) : passedAt px (o :: os) (j + 1) = passedAt px os j := by
  unfold passedAt
  rw [List.getElem?_cons_succ]

theorem findPassedAux_some {px : Int} :
    ∀ (os : List Obstacle) (i : Nat) (acc : Option Nat) (k : Nat),
      findPassedAux px os i acc = some k →
      (acc = some k ∧ ∀ j, passedAt px os j = false) ∨
      (∃ j, passedAt px os j = true ∧ k = i + j ∧
        ∀ j2, j < j2 → passedAt px os j2 = false)
  | [], _, _, _, h => Or.inl ⟨h, fun j => passedAt_nil px j⟩
  | o :: os, i, acc, k, h => by
      rcases findPassedAux_some os (i + 1)
          (if px > o.x then some i else acc) k h with
        ⟨hacc, hnone⟩ | ⟨j, hj, hk, hmax⟩
      · by_cases hpo : px > o.x
        · rw [if_pos hpo] at hacc
          injection hacc with hacc
          refine Or.inr ⟨0, ?_, by omega, ?_⟩
          · rw [passedAt_cons_zero]
            exact decide_eq_true hpo
          · intro j2 hj2
            cases j2 with
            | zero => omega
            | succ j3 =>
                rw [passedAt_cons_succ]
                exact hnone j3
        · rw [if_neg hpo] at hacc
          refine Or.inl ⟨hacc, fun j => ?_⟩
          cases j with
          | zero =>
              rw [passedAt_cons_zero]
              exact decide_eq_false hpo
          | succ j3 =>
              rw [passedAt_cons_succ]
              exact hnone j3
      · refine Or.inr ⟨j + 1, ?_, by omega, ?_⟩
        · rw [passedAt_cons_succ]
          exact hj
        · intro j2 hj2
          cases j2 with
          | zero => omega
          | succ j3 =>
              rw [passedAt_cons_succ]
              exact hmax j3 (by omega)

theorem findPassedAux_none {px : Int} :
    ∀ (os : List Obstacle) (i : Nat) (acc : Option Nat),
      findPassedAux px os i acc = none →
      acc = none ∧ ∀ j, passedAt px os j = false
  | [], _, _, h => ⟨h, fun j => passedAt_nil px j⟩
  | o :: os, i, acc, h => by
      obtain ⟨hacc, hnone⟩ := findPassedAux_none os (i + 1) _ h
      by_cases hpo : px > o.x
      · rw [if_pos hpo] at hacc
        exact absurd hacc (by simp)
      · rw [if_neg hpo] at hacc
        refine ⟨hacc, fun j => ?_⟩
        cases j with
        | zero =>
            rw [passedAt_cons_zero]
            exact decide_eq_false hpo
        | succ j3 =>
            rw [passedAt_cons_succ]
            exact hnone j3

theorem findPassed_some {px : Int} {os : List Obstacle} {k : Nat}
    (h : findPassed px os = some k) :
    passedAt px os k = true ∧ ∀ j, k < j → passedAt px os j = false := by
  rcases findPassedAux_some os 0 none k h with ⟨hacc, -⟩ | ⟨j, hj, hk, hmax⟩
  · exact absurd hacc (by simp)
  · have hkj : k = j := by omega
    subst hkj
    exact ⟨hj, hmax⟩

theorem findPassed_none {px : Int} {os : List Obstacle}
    (h : findPassed px os = none) : ∀ j, passedAt px os j = false :=
  (findPassedAux_none os 0 none h).2

/-! Inversion and field lemmas for the Playing tick. -/

theorem play_eq_some {s : State} {ctx : Ctx} {s' : State}
    (h : play s ctx = some s') :
    ∃ s2, playCore s ctx = some s2 ∧ s' = fallCheck s2 := by
  unfold play at h
  cases hc : playCore s ctx with
  | none =>
      rw [hc] at h
      exact Option.noConfusion h
  | some s2 =>
      rw [hc] at h
      injection h with h
      exact ⟨s2, rfl, h.symm⟩

theorem playCore_eq_some {s : State} {ctx : Ctx} {s2 : State}
    (h : playCore s ctx = some s2) :
    (findPassed (playPlayer s ctx).x s.obstacles = none ∧
      s2 = playBase s ctx) ∨
    (∃ i ob hist,
      findPassed (playPlayer s ctx).x s.obstacles = some i ∧
      create_obstacle_with_constraint s.last_obstacle_gap_y
        (max_x s.obstacles + OBSTACLE_INTERVAL) (s.score + 1) ctx.choice =
        some (ob, hist) ∧
      s2 = { playBase s ctx with
              score := s.score + 1,
              obstacles := s.obstacles.set i ob,
              last_obstacle_gap_y := hist }) := by
  unfold playCore at h
  cases hf : findPassed (playPlayer s ctx).x s.obstacles with
  | none =>
      rw [hf] at h
      injection h with h
      exact Or.inl ⟨rfl, h.symm⟩
  | some i =>
      rw [hf] at h
      cases hc : create_obstacle_with_constraint s.last_obstacle_gap_y
          (max_x s.obstacles + OBSTACLE_INTERVAL) (s.score + 1) ctx.choice with
      | none =>
          rw [hc] at h
          exact Option.noConfusion h
      | some p =>
          obtain ⟨ob, hist⟩ := p
          rw [hc] at h
          injection h with h
          exact Or.inr ⟨i, ob, hist, rfl, rfl, h.symm⟩

theorem fallCheck_player (s : State) : (fallCheck s).player = s.player := by
  unfold fallCheck
  split <;> rfl

theorem fallCheck_frame_time (s : State) :
    (fallCheck s).frame_time = s.frame_time := by
  unfold fallCheck
  split <;> rfl

theorem fallCheck_score (s : State) : (fallCheck s).score = s.score := by
  unfold fallCheck
  split <;> rfl

theorem fallCheck_obstacles (s : State) :
    (fallCheck s).obstacles = s.obstacles := by
  unfold fallCheck
  split <;> rfl

theorem fallCheck_last_gap (s : State) :
    (fallCheck s).last_obstacle_gap_y = s.last_obstacle_gap_y := by
  unfold fallCheck
  split <;> rfl

theorem fallCheck_mode_end {s : State} (h : s.mode = GameMode.End) :
    (fallCheck s).mode = GameMode.End := by
  unfold fallCheck
  split
  · rfl
  · exact h

theorem fallCheck_mode_of_y {s : State}
    (h : s.player.y > ((SCREEN_HEIGHT : Int) : ℚ)) :
    (fallCheck s).mode = GameMode.End := by
  unfold fallCheck
  rw [if_pos h]

theorem applyFlap_x (p : Player) (k : Option Key) :
    (applyFlap p k).x = p.x := by
  unfold applyFlap Player.flap
  split <;> rfl

theorem applyFlap_y (p : Player) (k : Option Key) :
    (applyFlap p k).y = p.y := by
  unfold applyFlap Player.flap
  split <;> rfl

theorem play_player_frame {s : State} {ctx : Ctx} {s' : State}
    (hp : play s ctx = some s') :
    s'.player = playPlayer s ctx ∧ s'.frame_time = playFrameTime s ctx := by
  obtain ⟨s2, hc, hs'⟩ := play_eq_some hp
  rcases playCore_eq_some hc with ⟨-, h2⟩ | ⟨i, ob, hist, -, -, h2⟩ <;>
    subst hs' <;> subst h2 <;>
      exact ⟨fallCheck_player _, fallCheck_frame_time _⟩

/-! Inversion lemmas for restart and the obstacle-building loop. -/

theorem restart_eq_some {s : State} {rs : List Nat} {s' : State}
    (h : s.restart rs = some s') :
    ∃ obs last2,
      build_obstacles none SCREEN_WIDTH INITIAL_OBSTACLES rs =
        some (obs, last2) ∧
      s' = { s with
              player := Player.new 5 25,
              frame_time := 0,
              mode := GameMode.Playing,
              obstacles := obs,
              last_obstacle_gap_y := last2,
              score := 0 } := by
  unfold State.restart at h
  cases hb : build_obstacles none SCREEN_WIDTH INITIAL_OBSTACLES rs with
  | none =>
      rw [hb] at h
      exact Option.noConfusion h
  | some p =>
      obtain ⟨obs, last2⟩ := p
      rw [hb] at h
      injection h with h
      exact ⟨obs, last2, rfl, h.symm⟩

theorem build_obstacles_succ_eq (last : Option Int) (x : Int) (n : Nat)
    (r : Nat) (rs : List Nat) :
    build_obstacles last x (n + 1) (r :: rs) =
      match create_obstacle_with_constraint last x 0 r with
      | some (o, last1) =>
          match build_obstacles last1 (x + OBSTACLE_INTERVAL) n rs with
          | some (os, last2) => some (o :: os, last2)
          | none => none
      | none => none := rfl

theorem build_obstacles_spec :
    ∀ (n : Nat) (last : Option Int) (x : Int) (rs : List Nat)
      (os : List Obstacle) (last2 : Option Int),
      build_obstacles last x n rs = some (os, last2) →
      (os.map fun o => o.x) = obstacleXs x n ∧
      (∀ o ∈ os, minGapY 0 ≤ o.gap_y ∧ o.gap_y < maxGapY 0 ∧
        o.size = gapSize 0) ∧
      ((n = 0 ∧ last2 = last) ∨
        ∀ g, last2 = some g → minGapY 0 ≤ g ∧ g < maxGapY 0)
  | 0, last, x, rs, os, last2, h => by
      injection h with h
      have hos : os = [] := by
        have := congrArg Prod.fst h
        exact this.symm
      have hl : last2 = last := by
        have := congrArg Prod.snd h
        exact this.symm
      subst hos
      exact ⟨rfl, by simp, Or.inl ⟨rfl, hl⟩⟩
  | n + 1, last, x, [], os, last2, h => Option.noConfusion h
  | n + 1, last, x, r :: rs, os, last2, h => by
      rw [build_obstacles_succ_eq] at h
      cases hcr : create_obstacle_with_constraint last x 0 r with
      | none =>
          rw [hcr] at h
          exact Option.noConfusion h
      | some p =>
          obtain ⟨o, last1⟩ := p
          rw [hcr] at h
          have h2 : (match build_obstacles last1 (x + OBSTACLE_INTERVAL) n rs with
                     | some (os2, l2) => some (o :: os2, l2)
                     | none => none) = some (os, last2) := h
          cases hb : build_obstacles last1 (x + OBSTACLE_INTERVAL) n rs with
          | none =>
              rw [hb] at h2
              exact Option.noConfusion h2
          | some q =>
              obtain ⟨os1, lastq⟩ := q
              rw [hb] at h2
              injection h2 with h2
              have hos : os = o :: os1 := by
                have := congrArg Prod.fst h2
                exact this.symm
              have hl : last2 = lastq := by
                have := congrArg Prod.snd h2
                exact this.symm
              subst hos
              subst hl
              obtain ⟨hxs, hall, hrec⟩ :=
                build_obstacles_spec n last1 (x + OBSTACLE_INTERVAL) rs os1 last2 hb
              obtain ⟨hox, hosz, hoh, homin, homax, -⟩ := create_eq_some hcr
              refine ⟨?_, ?_, ?_⟩
              · simp only [List.map_cons, hxs, hox]
                rfl
              · intro o2 ho2
                rcases List.mem_cons.mp ho2 with h1 | h1
                · subst h1
                  exact ⟨homin, homax, hosz⟩
                · exact hall o2 h1
              · rcases hrec with ⟨hn0, hlq⟩ | hbound
                · subst hn0
                  refine Or.inr ?_
                  intro g hg
                  rw [hlq, hoh] at hg
                  injection hg with hg
                  subst hg
                  exact ⟨homin, homax⟩
                · exact Or.inr hbound

/-! Concrete evaluations of the Playing tick used by the witnesses. -/

theorem playPlayer_passState : playPlayer passState passCtx = ⟨81, 25, 0⟩ := by
  norm_num [playPlayer, stepPhysics, applyFlap, passState, passCtx,
    FRAME_DURATION]
  intro h
  exact Option.noConfusion h

theorem play_passState : play passState passCtx = some passResult := by
  have hft : playFrameTime passState passCtx = 0 := by
    norm_num [playFrameTime, stepPhysics, passState, passCtx, FRAME_DURATION]
  have hbase : playBase passState passCtx = passState := by
    simp only [playBase, playMode, playPlayer_passState, hft]
    norm_num [anyHit, Obstacle.hit_obstacle, passState, passCtx]
    decide
  have hcore : playCore passState passCtx = some passResult := by
    simp only [playCore, playPlayer_passState, hbase]
    norm_num [findPassed, findPassedAux, passState, passCtx, passResult,
      max_x, create_obstacle_with_constraint, rngRange, gapSize, minGapY,
      maxGapY, maxDiff, SCREEN_HEIGHT, SCREEN_WIDTH, OBSTACLE_INTERVAL]
  have hfall : fallCheck passResult = passResult := by
    norm_num [fallCheck, passResult, SCREEN_HEIGHT]
  simp [play, hcore, hfall]

theorem playPlayer_deathState : playPlayer deathState passCtx = ⟨81, 45, 0⟩ := by
  norm_num [playPlayer, stepPhysics, applyFlap, deathState, passCtx,
    FRAME_DURATION]
  intro h
  exact Option.noConfusion h

theorem anyHit_deathState :
    anyHit (playPlayer deathState passCtx) deathState.obstacles = true := by
  rw [playPlayer_deathState]
  norm_num [anyHit, Obstacle.hit_obstacle, deathState]

theorem play_deathState : play deathState passCtx = some deathResult := by
  have hft : playFrameTime deathState passCtx = 0 := by
    norm_num [playFrameTime, stepPhysics, deathState, passCtx, FRAME_DURATION]
  have hmode : playMode deathState passCtx = GameMode.End := by
    unfold playMode
    rw [anyHit_deathState]
    rfl
  have hbase : playBase deathState passCtx =
      { deathState with mode := GameMode.End } := by
    simp only [playBase, playPlayer_deathState, hft, hmode]
    norm_num [deathState, passCtx]
    decide
  have hcore : playCore deathState passCtx = some deathResult := by
    simp only [playCore, playPlayer_deathState, hbase]
    norm_num [findPassed, findPassedAux, deathState, passCtx, deathResult,
      max_x, create_obstacle_with_constraint, rngRange, gapSize, minGapY,
      maxGapY, maxDiff, SCREEN_HEIGHT, SCREEN_WIDTH, OBSTACLE_INTERVAL]
  have hfall : fallCheck deathResult = deathResult := by
    norm_num [fallCheck, deathResult, SCREEN_HEIGHT]
  simp [play, hcore, hfall]

theorem play_fallState : play fallState passCtx = some fallResult := by
  have hpp : playPlayer fallState passCtx = ⟨10, 60, 0⟩ := by
    norm_num [playPlayer, stepPhysics, applyFlap, fallState, passCtx,
      FRAME_DURATION]
    intro h
    exact Option.noConfusion h
  have hft : playFrameTime fallState passCtx = 0 := by
    norm_num [playFrameTime, stepPhysics, fallState, passCtx, FRAME_DURATION]
  have hbase : playBase fallState passCtx = fallState := by
    simp only [playBase, playMode, hpp, hft]
    norm_num [anyHit, fallState, passCtx]
    decide
  have hcore : playCore fallState passCtx = some fallState := by
    simp only [playCore, hpp, hbase]
    norm_num [findPassed, findPassedAux, fallState]
  have hfall : fallCheck fallState = fallResult := by
    unfold fallCheck
    rw [if_pos]
    · rfl
    · show fallState.player.y > ((SCREEN_HEIGHT : Int) : ℚ)
      norm_num [fallState, SCREEN_HEIGHT]
  simp [play, hcore, hfall]

/-- C4: on a Playing tick that passes obstacle i, the obstacle list
keeps its length (replacement in place), the score increments, and the
replacement sits at max x of the current obstacles plus the interval,
generated with the incremented score. -/
theorem c4_replacement (s : State) (ctx : Ctx) (s' : State) (i : Nat)
    (hp : play s ctx = some s')
    (hi : findPassed (playPlayer s ctx).x s.obstacles = some i) :
    s'.obstacles.length = s.obstacles.length ∧
      s'.score = s.score + 1 ∧
      ∃ ob hist,
        create_obstacle_with_constraint s.last_obstacle_gap_y
          (max_x s.obstacles + OBSTACLE_INTERVAL) (s.score + 1) ctx.choice =
          some (ob, hist) ∧
        ob.x = max_x s.obstacles + OBSTACLE_INTERVAL ∧
        ob.size = gapSize (s.score + 1) ∧
        s'.obstacles = s.obstacles.set i ob := by
  obtain ⟨s2, hc, hs'⟩ := play_eq_some hp
  subst hs'
  rcases playCore_eq_some hc with ⟨hnone, -⟩ | ⟨i2, ob, hist, hf, hcr, h2⟩
  · rw [hnone] at hi
    exact Option.noConfusion hi
  · rw [hf] at hi
    injection hi with hi
    subst hi
    subst h2
    obtain ⟨hobx, hobsz, -, -, -, -⟩ := create_eq_some hcr
    refine ⟨?_, ?_, ob, hist, hcr, hobx, hobsz, ?_⟩
    · rw [fallCheck_obstacles]
      show (s.obstacles.set i2 ob).length = s.obstacles.length
      exact List.length_set ..
    · rw [fallCheck_score]
    · rw [fallCheck_obstacles]

/-- Witness for C4: the spec's concrete scenario, entity at x = 81 with
obstacles at 80, 110, 140. -/
theorem c4_witness :
    passResult.obstacles.length = passState.obstacles.length ∧
      passResult.score = passState.score + 1 ∧
      ∃ ob hist,
        create_obstacle_with_constraint passState.last_obstacle_gap_y
          (max_x passState.obstacles + OBSTACLE_INTERVAL)
          (passState.score + 1) passCtx.choice = some (ob, hist) ∧
        ob.x = max_x passState.obstacles + OBSTACLE_INTERVAL ∧
        ob.size = gapSize (passState.score + 1) ∧
        passResult.obstacles = passState.obstacles.set 0 ob :=
  c4_replacement passState passCtx passResult 0 play_passState
    (by rw [playPlayer_passState]; decide)

/-- C5: on a Playing tick on which at least one obstacle is passed, the
score increments exactly once, and exactly one obstacle is regenerated:
the highest-indexed passed one. -/
theorem c5_single_pass (s : State) (ctx : Ctx) (s' : State)
    (hp : play s ctx = some s')
    (hpass : ∃ j, passedAt (playPlayer s ctx).x s.obstacles j = true) :
    s'.score = s.score + 1 ∧
      ∃ i, findPassed (playPlayer s ctx).x s.obstacles = some i ∧
        passedAt (playPlayer s ctx).x s.obstacles i = true ∧
        (∀ j, i < j → passedAt (playPlayer s ctx).x s.obstacles j = false) ∧
        ∃ ob hist,
          create_obstacle_with_constraint s.last_obstacle_gap_y
            (max_x s.obstacles + OBSTACLE_INTERVAL) (s.score + 1)
            ctx.choice = some (ob, hist) ∧
          s'.obstacles = s.obstacles.set i ob := by
  obtain ⟨s2, hc, hs'⟩ := play_eq_some hp
  subst hs'
  rcases playCore_eq_some hc with ⟨hnone, -⟩ | ⟨i, ob, hist, hf, hcr, h2⟩
  · obtain ⟨j, hj⟩ := hpass
    rw [findPassed_none hnone j] at hj
    exact absurd hj (by simp)
  · subst h2
    obtain ⟨hik, hmax⟩ := findPassed_some hf
    refine ⟨?_, i, hf, hik, hmax, ob, hist, hcr, ?_⟩
    · rw [fallCheck_score]
    · rw [fallCheck_obstacles]

/-- Witness for C5: in the concrete pass scenario only obstacle 0 is
passed and it is the one selected. -/
theorem c5_witness :
    passResult.score = passState.score + 1 ∧
      ∃ i, findPassed (playPlayer passState passCtx).x passState.obstacles =
        some i ∧
        passedAt (playPlayer passState passCtx).x passState.obstacles i =
          true ∧
        (∀ j, i < j →
          passedAt (playPlayer passState passCtx).x passState.obstacles j =
            false) ∧
        ∃ ob hist,
          create_obstacle_with_constraint passState.last_obstacle_gap_y
            (max_x passState.obstacles + OBSTACLE_INTERVAL)
            (passState.score + 1) passCtx.choice = some (ob, hist) ∧
          passResult.obstacles = passState.obstacles.set i ob :=
  c5_single_pass passState passCtx passResult play_passState
    ⟨0, by rw [playPlayer_passState]; decide⟩

/-- C6: the physics step (gravity and x/y advance) runs only when the
accumulated frame time exceeds FRAME_DURATION, in which case the
accumulator resets to 0; a sub-threshold tick leaves x and y unchanged
and just accumulates the elapsed time. -/
theorem c6_physics_gate (s : State) (ctx : Ctx) (s' : State)
    (hp : play s ctx = some s') :
    (¬ s.frame_time + ctx.frame_time_ms > FRAME_DURATION →
      s'.player.x = s.player.x ∧ s'.player.y = s.player.y ∧
        s'.frame_time = s.frame_time + ctx.frame_time_ms) ∧
    (s.frame_time + ctx.frame_time_ms > FRAME_DURATION →
      s'.frame_time = 0 ∧ s'.player.x = s.player.gravity_and_move.x ∧
        s'.player.y = s.player.gravity_and_move.y) := by
  obtain ⟨hpl, hft⟩ := play_player_frame hp
  constructor
  · intro hthr
    have h1 : stepPhysics s.player s.frame_time ctx.frame_time_ms =
        (s.frame_time + ctx.frame_time_ms, s.player) := by
      unfold stepPhysics
      rw [if_neg hthr]
    refine ⟨?_, ?_, ?_⟩
    · rw [hpl]
      unfold playPlayer
      rw [h1]
      exact applyFlap_x s.player ctx.key
    · rw [hpl]
      unfold playPlayer
      rw [h1]
      exact applyFlap_y s.player ctx.key
    · rw [hft]
      unfold playFrameTime
      rw [h1]
  · intro hthr
    have h1 : stepPhysics s.player s.frame_time ctx.frame_time_ms =
        (0, s.player.gravity_and_move) := by
      unfold stepPhysics
      rw [if_pos hthr]
    refine ⟨?_, ?_, ?_⟩
    · rw [hft]
      unfold playFrameTime
      rw [h1]
    · rw [hpl]
      unfold playPlayer
      rw [h1]
      exact applyFlap_x s.player.gravity_and_move ctx.key
    · rw [hpl]
      unfold playPlayer
      rw [h1]
      exact applyFlap_y s.player.gravity_and_move ctx.key

/-- Witness for C6 on the concrete sub-threshold tick (0 + 0 does not
exceed 75). -/
theorem c6_witness :
    (¬ passState.frame_time + passCtx.frame_time_ms > FRAME_DURATION →
      passResult.player.x = passState.player.x ∧
        passResult.player.y = passState.player.y ∧
        passResult.frame_time =
          passState.frame_time + passCtx.frame_time_ms) ∧
    (passState.frame_time + passCtx.frame_time_ms > FRAME_DURATION →
      passResult.frame_time = 0 ∧
        passResult.player.x = passState.player.gravity_and_move.x ∧
        passResult.player.y = passState.player.gravity_and_move.y) :=
  c6_physics_gate passState passCtx passResult play_passState

/-- C10: on a Playing tick that both detects a collision and passes an
obstacle, the mode becomes End and yet the score still increments and
the passed obstacle is still replaced in that same tick. -/
theorem c10_death_tick_scores (s : State) (ctx : Ctx) (s' : State) (i : Nat)
    (hp : play s ctx = some s')
    (hhit : anyHit (playPlayer s ctx) s.obstacles = true)
    (hi : findPassed (playPlayer s ctx).x s.obstacles = some i) :
    s'.mode = GameMode.End ∧ s'.score = s.score + 1 ∧
      ∃ ob hist,
        create_obstacle_with_constraint s.last_obstacle_gap_y
          (max_x s.obstacles + OBSTACLE_INTERVAL) (s.score + 1) ctx.choice =
          some (ob, hist) ∧
        s'.obstacles = s.obstacles.set i ob := by
  obtain ⟨s2, hc, hs'⟩ := play_eq_some hp
  subst hs'
  rcases playCore_eq_some hc with ⟨hnone, -⟩ | ⟨i2, ob, hist, hf, hcr, h2⟩
  · rw [hnone] at hi
    exact Option.noConfusion hi
  · rw [hf] at hi
    injection hi with hi
    subst hi
    subst h2
    have hmode : playMode s ctx = GameMode.End := by
      unfold playMode
      rw [hhit]
      rfl
    refine ⟨?_, ?_, ob, hist, hcr, ?_⟩
    · apply fallCheck_mode_end
      show playMode s ctx = GameMode.End
      exact hmode
    · rw [fallCheck_score]
    · rw [fallCheck_obstacles]

/-- Witness for C10: at x = 81 the entity passes the obstacle at 80 and
collides with the one at 81; mode End, score 1, obstacle 0 replaced. -/
theorem c10_witness :
    deathResult.mode = GameMode.End ∧
      deathResult.score = deathState.score + 1 ∧
      ∃ ob hist,
        create_obstacle_with_constraint deathState.last_obstacle_gap_y
          (max_x deathState.obstacles + OBSTACLE_INTERVAL)
          (deathState.score + 1) passCtx.choice = some (ob, hist) ∧
        deathResult.obstacles = deathState.obstacles.set 0 ob :=
  c10_death_tick_scores deathState passCtx deathResult 0 play_deathState
    anyHit_deathState (by rw [playPlayer_deathState]; decide)

/-- C7: a Playing tick that leaves the entity's y beyond the field
height ends in mode End; from mode End every tick dispatches to the End
handler, which keeps the mode End for every input except a restart
action, which is the only way back to Playing. -/
theorem c7_end_once (s : State) (ctx : Ctx) (s' : State)
    (hend : s.mode = GameMode.End) (htick : tick s ctx = some s')
    (sp : State) (ctxp : Ctx) (sp' : State)
    (hplay : play sp ctxp = some sp')
    (hy : sp'.player.y > ((SCREEN_HEIGHT : Int) : ℚ)) :
    sp'.mode = GameMode.End ∧
      tick s ctx = dead s ctx.action ctx.rand ∧
      ((ctx.action ≠ some ButtonAction.Play ∧
        ctx.action ≠ some ButtonAction.Restart) → s'.mode = GameMode.End) ∧
      ((ctx.action = some ButtonAction.Play ∨
        ctx.action = some ButtonAction.Restart) →
        s'.mode = GameMode.Playing) := by
  have hdisp : tick s ctx = dead s ctx.action ctx.rand := by
    unfold tick
    rw [hend]
  rw [hdisp] at htick
  obtain ⟨s2, hc, hs2⟩ := play_eq_some hplay
  subst hs2
  refine ⟨fallCheck_mode_of_y ?_, hdisp, ?_, ?_⟩
  · rw [fallCheck_player] at hy
    exact hy
  · rintro ⟨hna, hnr⟩
    cases hact : ctx.action with
    | none =>
        rw [hact] at htick
        have h2 : some s = some s' := htick
        injection h2 with h2
        rw [← h2]
        exact hend
    | some a =>
        cases a with
        | Play => exact absurd hact hna
        | Restart => exact absurd hact hnr
        | Quit =>
            rw [hact] at htick
            have h2 : some s = some s' := htick
            injection h2 with h2
            rw [← h2]
            exact hend
        | ToggleAudio =>
            rw [hact] at htick
            have h2 : some { s with audio_enabled := !s.audio_enabled } =
                some s' := htick
            injection h2 with h2
            rw [← h2]
            exact hend
        | ToggleMusic =>
            rw [hact] at htick
            have h2 : some { s with music_enabled := !s.music_enabled } =
                some s' := htick
            injection h2 with h2
            rw [← h2]
            exact hend
  · intro hres
    rcases hres with hact | hact <;>
      (rw [hact] at htick
       obtain ⟨obs, last2, hb, hs'⟩ := restart_eq_some htick
       subst hs'
       rfl)

/-- Witness for C7: a quiet End-screen tick keeps mode End, and the
concrete fall scenario (y = 60 > 50) ends in mode End. -/
theorem c7_witness :
    fallResult.mode = GameMode.End ∧
      tick endState endCtx = dead endState endCtx.action endCtx.rand ∧
      ((endCtx.action ≠ some ButtonAction.Play ∧
        endCtx.action ≠ some ButtonAction.Restart) →
        endState.mode = GameMode.End) ∧
      ((endCtx.action = some ButtonAction.Play ∨
        endCtx.action = some ButtonAction.Restart) →
        endState.mode = GameMode.Playing) :=
  c7_end_once endState endCtx endState rfl rfl fallState passCtx fallResult
    play_fallState (by norm_num [fallResult, SCREEN_HEIGHT])

/-- C8: restart enters Playing with the player recreated at (5, 25),
accumulator and score zero, exactly INITIAL_OBSTACLES obstacles at
x = 80, 110, 140, each gap inside the valid range; it ignores any
previous gap history, and both the Menu start and the End restart
actions route through it. -/
theorem c8_restart (s : State) (rs : List Nat) (s' : State)
    (h : s.restart rs = some s') :
    s'.mode = GameMode.Playing ∧ s'.player = Player.new 5 25 ∧
      s'.frame_time = 0 ∧ s'.score = 0 ∧
      (s'.obstacles.map fun o => o.x) = [80, 110, 140] ∧
      s'.obstacles.length = INITIAL_OBSTACLES ∧
      (∀ o ∈ s'.obstacles, minGapY 0 ≤ o.gap_y ∧ o.gap_y ≤ maxGapY 0) ∧
      (∀ g, State.restart { s with last_obstacle_gap_y := g } rs =
        some s') ∧
      main_menu s (some ButtonAction.Play) rs = some s' ∧
      dead s (some ButtonAction.Restart) rs = some s' := by
  obtain ⟨obs, last2, hb, hs'⟩ := restart_eq_some h
  obtain ⟨hxs, hall, -⟩ := build_obstacles_spec _ _ _ _ _ _ hb
  subst hs'
  refine ⟨rfl, rfl, rfl, rfl, ?_, ?_, ?_, ?_, h, h⟩
  · show obs.map (fun o => o.x) = [80, 110, 140]
    rw [hxs]
    decide
  · show obs.length = INITIAL_OBSTACLES
    have h1 : (obs.map fun o => o.x).length =
        (obstacleXs SCREEN_WIDTH INITIAL_OBSTACLES).length := by
      rw [hxs]
    rw [List.length_map] at h1
    rw [h1]
    decide
  · intro o ho
    obtain ⟨h1, h2, -⟩ := hall o ho
    exact ⟨h1, le_of_lt h2⟩
  · intro g
    unfold State.restart
    rw [hb]

/-- Witness for C8: restarting from a concrete End state with all draws
fixed to 0. -/
theorem c8_witness :
    restartResult.mode = GameMode.Playing ∧
      restartResult.player = Player.new 5 25 ∧
      restartResult.frame_time = 0 ∧ restartResult.score = 0 ∧
      (restartResult.obstacles.map fun o => o.x) = [80, 110, 140] ∧
      restartResult.obstacles.length = INITIAL_OBSTACLES ∧
      (∀ o ∈ restartResult.obstacles,
        minGapY 0 ≤ o.gap_y ∧ o.gap_y ≤ maxGapY 0) ∧
      (∀ g, State.restart { endState with last_obstacle_gap_y := g }
        [0, 0, 0] = some restartResult) ∧
      main_menu endState (some ButtonAction.Play) [0, 0, 0] =
        some restartResult ∧
      dead endState (some ButtonAction.Restart) [0, 0, 0] =
        some restartResult :=
  c8_restart endState [0, 0, 0] restartResult rfl

/-! Preservation of the gap-history invariant by every handler. -/

theorem gapInv_restart {s : State} {rs : List Nat} {s' : State}
    (h : s.restart rs = some s') : GapInv s' := by
  obtain ⟨obs, last2, hb, hs'⟩ := restart_eq_some h
  obtain ⟨-, -, hrec⟩ := build_obstacles_spec _ _ _ _ _ _ hb
  subst hs'
  constructor
  · show (0 : Int) ≤ 0
    exact le_refl 0
  · intro g hg
    show minGapY 0 ≤ g ∧ g < maxGapY 0
    rcases hrec with ⟨hn0, -⟩ | hbound
    · exact absurd hn0 (by decide)
    · exact hbound g hg

theorem gapInv_play {s : State} {ctx : Ctx} {s' : State} (hInv : GapInv s)
    (h : play s ctx = some s') : GapInv s' := by
  obtain ⟨s2, hc, hs'⟩ := play_eq_some h
  subst hs'
  rcases playCore_eq_some hc with ⟨-, h2⟩ | ⟨i, ob, hist, -, hcr, h2⟩
  · subst h2
    constructor
    · rw [fallCheck_score]
      exact hInv.1
    · intro g hg
      rw [fallCheck_last_gap] at hg
      have hbound := hInv.2 g hg
      rw [fallCheck_score]
      exact hbound
  · subst h2
    obtain ⟨-, -, hh, hmin, hmax, -⟩ := create_eq_some hcr
    constructor
    · rw [fallCheck_score]
      show 0 ≤ s.score + 1
      have := hInv.1
      omega
    · intro g hg
      rw [fallCheck_last_gap] at hg
      have hg2 : some ob.gap_y = some g := by
        rw [← hh]
        exact hg
      injection hg2 with hg2
      subst hg2
      rw [fallCheck_score]
      show minGapY (s.score + 1) ≤ ob.gap_y ∧ ob.gap_y < maxGapY (s.score + 1)
      exact ⟨hmin, hmax⟩

theorem gapInv_main_menu {s : State} {act : Option ButtonAction}
    {rs : List Nat} {s' : State} (hInv : GapInv s)
    (h : main_menu s act rs = some s') : GapInv s' := by
  cases act with
  | none =>
      have h2 : some s = some s' := h
      injection h2 with h2
      subst h2
      exact hInv
  | some a =>
      cases a with
      | Play => exact gapInv_restart h
      | Restart => exact gapInv_restart h
      | Quit =>
          have h2 : some s = some s' := h
          injection h2 with h2
          subst h2
          exact hInv
      | ToggleAudio =>
          have h2 : some { s with audio_enabled := !s.audio_enabled } =
              some s' := h
          injection h2 with h2
          subst h2
          exact ⟨hInv.1, hInv.2⟩
      | ToggleMusic =>
          have h2 : some { s with music_enabled := !s.music_enabled } =
              some s' := h
          injection h2 with h2
          subst h2
          exact ⟨hInv.1, hInv.2⟩

theorem gapInv_dead {s : State} {act : Option ButtonAction}
    {rs : List Nat} {s' : State} (hInv : GapInv s)
    (h : dead s act rs = some s') : GapInv s' := by
  cases act with
  | none =>
      have h2 : some s = some s' := h
      injection h2 with h2
      subst h2
      exact hInv
  | some a =>
      cases a with
      | Play => exact gapInv_restart h
      | Restart => exact gapInv_restart h
      | Quit =>
          have h2 : some s = some s' := h
          injection h2 with h2
          subst h2
          exact hInv
      | ToggleAudio =>
          have h2 : some { s with audio_enabled := !s.audio_enabled } =
              some s' := h
          injection h2 with h2
          subst h2
          exact ⟨hInv.1, hInv.2⟩
      | ToggleMusic =>
          have h2 : some { s with music_enabled := !s.music_enabled } =
              some s' := h
          injection h2 with h2
          subst h2
          exact ⟨hInv.1, hInv.2⟩

theorem gapInv_tick {s : State} {ctx : Ctx} {s' : State} (hInv : GapInv s)
    (h : tick s ctx = some s') : GapInv s' := by
  unfold tick at h
  cases hm : s.mode with
  | Menu =>
      rw [hm] at h
      exact gapInv_main_menu hInv h
  | Playing =>
      rw [hm] at h
      exact gapInv_play hInv h
  | End =>
      rw [hm] at h
      exact gapInv_dead hInv h

theorem reachable_gapInv {s : State} (h : Reachable s) : GapInv s := by
  induction h with
  | init obs => exact ⟨le_refl 0, fun g hg => Option.noConfusion hg⟩
  | step ctx hr htick ih => exact gapInv_tick ih htick

/-- C9: in every reachable state with a gap history, the recorded gap
center lies inside the valid range for every score the generator can be
called with (the current one or larger, since score only grows), so the
clamped bounds min_allowed = max(minGapY, g - maxDiff) and
max_allowed = min(maxGapY, g + maxDiff) never cross: the degenerate
range of the fallback clause is unreachable. -/
theorem c9_no_degenerate (s : State) (hreach : Reachable s) (g : Int)
    (hg : s.last_obstacle_gap_y = some g) (sc : Int) (hsc : s.score ≤ sc) :
    minGapY sc ≤ g ∧ g ≤ maxGapY sc ∧
      max (minGapY sc) (g - maxDiff) ≤ min (maxGapY sc) (g + maxDiff) := by
  obtain ⟨h0, hbound⟩ := reachable_gapInv hreach
  obtain ⟨h1, h2⟩ := hbound g hg
  unfold minGapY maxGapY gapSize maxDiff SCREEN_HEIGHT at *
  omega

/-- Witness for C9: the state reached by starting the game from a fresh
state has history 12 at score 0, and at score 1 the clamp bounds do not
cross. -/
theorem c9_witness :
    minGapY 1 ≤ 12 ∧ (12 : Int) ≤ maxGapY 1 ∧
      max (minGapY 1) (12 - maxDiff) ≤ min (maxGapY 1) (12 + maxDiff) :=
  c9_no_degenerate demoState
    (Reachable.step demoCtx (Reachable.init []) rfl) 12 rfl 1 (by decide)

end FlappyGame
